import Mathlib

/-!
Shallow embedding of the orchestra package: a minimal lifecycle framework
for units of concurrent work ("players") grouped into stages.

Modelling decisions:
- A player is represented by the results its methods return: `setup` is the
  error value returned by its Setup method (`none` models a nil Go error),
  `play` maps a cancellation context to the error returned by its Play
  method.  Clean returns nothing in Go, so it has no result to model; its
  invocations are recorded in the event trace.
- Cancellation contexts and error values are opaque tokens (Nat / String).
- The Go map `players` is modelled as an association list with unique keys;
  the list order stands for the (unspecified) map iteration order.
- Stage methods return, besides their Go results, a trace of the player
  method invocations they performed, so that claims about which players had
  Setup/Play/Clean invoked (and how often) can be stated.
- The Go panic in Stage.Play is modelled by an `Option` result: `none` is
  the panic, `some` a normal return.
- Goroutine fan-out in Play and Clean is modelled by its observable outcome:
  every player is invoked exactly once and the returned value is computed
  from all players (the completion barrier), serialised in registry order.
-/

namespace Orchestra

/-- Cancellation contexts are opaque tokens. -/
abbrev Ctx := Nat

/-- Error values returned by players are opaque strings; `none` models nil. -/
abbrev Err := String

/-- A player of the orchestra: the observable behaviour of a value
implementing the Player interface (Setup, Play, Clean). -/
structure Player where
  setup : Option Err
  play : Ctx → Option Err

/-- One recorded invocation of a player method, labelled by player name. -/
inductive Event where
  | setup (name : String)
  | play (name : String)
  | clean (name : String)
deriving DecidableEq, Repr

/-- The registry of a stage: an association list from names to players,
standing for the Go map with its iteration order. -/
abbrev Registry := List (String × Player)

/-- The names registered in a registry. -/
def Registry.keys (r : Registry) : List String := r.map Prod.fst

/-- Go map read: the player registered under a name, if any. -/
def Registry.lookup : Registry → String → Option Player
  | [], _ => none
  | (m, q) :: rest, n => if m = n then some q else Registry.lookup rest n

/-- Go map write `s.players[name] = p`: replace the entry under the name if
present, otherwise add one. -/
def Registry.add : Registry → String → Player → Registry
  | [], n, p => [(n, p)]
  | (m, q) :: rest, n, p =>
    if m = n then (n, p) :: rest else (m, q) :: Registry.add rest n p

/-- ErrSetup carries the name of the faulty player and the error its Setup
method returned. -/
structure ErrSetup where
  Player : String
  Err : Err
deriving DecidableEq, Repr

/-- ErrPlay carries the map from every failing player name to its error,
modelled as an association list of its entries. -/
structure ErrPlay where
  Players : List (String × Err)
deriving DecidableEq, Repr

/-- Stage: a named collection of players plus the beenSetup flag. -/
structure Stage where
  players : Registry
  beenSetup : Bool

/-- NewStage creates a new empty stage. -/
def NewStage : Stage := { players := [], beenSetup := false }

/-- Add adds a player to the stage (Go map assignment, last write wins). -/
def Stage.Add (s : Stage) (name : String) (p : Player) : Stage :=
  { s with players := Registry.add s.players name p }

/-- The loop of Stage.Setup: call Setup on each player in order, stopping at
the first failure.  Returns the trace of Setup invocations, the list of
players that were set up successfully (the `good` slice, with their names),
and the first failure with the faulty player name, if any. -/
def setupLoop : Registry → List Event × Registry × Option (String × Err)
  | [] => ([], [], none)
  | (name, p) :: rest =>
    match p.setup with
    | some e => ([Event.setup name], [], some (name, e))
    | none =>
      let r := setupLoop rest
      (Event.setup name :: r.1, (name, p) :: r.2.1, r.2.2)

/-- Stage.Setup: set up all players in order; on the first failure clean the
already-set-up players and return an ErrSetup; on full success set the
beenSetup flag.  Returns the updated stage, the Go return value, and the
trace of Setup/Clean invocations performed. -/
def Stage.Setup (s : Stage) : Stage × Option ErrSetup × List Event :=
  let r := setupLoop s.players
  match r.2.2 with
  | some fe =>
      (s, some { Player := fe.1, Err := fe.2 },
        r.1 ++ (r.2.1).map (fun q => Event.clean q.1))
  | none => ({ s with beenSetup := true }, none, r.1)

/-- Stage.Clean: invoke Clean on every registered player (concurrently in
Go; here the trace lists one invocation per player).  No value returned. -/
def Stage.Clean (s : Stage) : List Event :=
  s.players.map (fun q => Event.clean q.1)

/-- Stage.Play: panic (modelled as `none`) when the stage has not been set
up successfully; otherwise invoke Play on every player with the shared
context, wait for all, and aggregate the failures into an ErrPlay (or nil
when there is none).  Returns the Go return value and the invocation
trace. -/
def Stage.Play (s : Stage) (ctx : Ctx) : Option (Option ErrPlay × List Event) :=
  if !s.beenSetup then none
  else
    let errs := s.players.filterMap (fun q => (q.2.play ctx).map (fun e => (q.1, e)))
    some (if errs = [] then none else some { Players := errs },
      s.players.map (fun q => Event.play q.1))

/-- SimplePlayer: a bare function from a cancellation context to an error,
usable as a player. -/
def SimplePlayer := Ctx → Option Err

/-- Setup of a SimplePlayer returns a nil error. -/
def SimplePlayer.Setup (_sp : SimplePlayer) : Option Err := none

/-- Clean of a SimplePlayer does nothing. -/
def SimplePlayer.Clean (_sp : SimplePlayer) : Unit := ()

/-- Play of a SimplePlayer calls the wrapped function with the given
context and returns its result. -/
def SimplePlayer.Play (sp : SimplePlayer) (ctx : Ctx) : Option Err := sp ctx

/-- The Player behaviour a SimplePlayer exhibits inside a stage. -/
def SimplePlayer.toPlayer (sp : SimplePlayer) : Player :=
  { setup := sp.Setup, play := sp.Play }

/-- A player whose Setup and Play both succeed (for concrete scenarios). -/
def okPlayer : Player := { setup := none, play := fun _ => none }

/-- A player whose Setup fails with the given error. -/
def badSetupPlayer (e : Err) : Player := { setup := some e, play := fun _ => none }

/-- A player whose Setup succeeds and whose Play fails with the given
error. -/
def badPlayPlayer (e : Err) : Player := { setup := none, play := fun _ => some e }

/-! ### Helper lemmas -/

lemma keys_append (r1 r2 : Registry) :
    Registry.keys (r1 ++ r2) = Registry.keys r1 ++ Registry.keys r2 := by
  simp [Registry.keys]

lemma event_setup_inj : Function.Injective Event.setup := by
  intro a b h
  injection h

lemma event_clean_inj : Function.Injective Event.clean := by
  intro a b h
  injection h

lemma event_play_inj : Function.Injective Event.play := by
  intro a b h
  injection h

lemma count_map_label (f : String → Event) (hf : Function.Injective f)
    (l : Registry) (n : String) :
    (l.map (fun q => f q.1)).count (f n) = (Registry.keys l).count n := by
  have h : l.map (fun q => f q.1) = (l.map Prod.fst).map f := by
    rw [List.map_map]
    rfl
  rw [h, Registry.keys]
  exact List.count_map_of_injective _ f hf n

lemma count_setup_in_clean_map (l : Registry) (n : String) :
    (l.map (fun q => Event.clean q.1)).count (Event.setup n) = 0 :=
  List.count_eq_zero_of_not_mem (by simp [List.mem_map])

lemma count_clean_in_setup_map (l : Registry) (n : String) :
    (l.map (fun q => Event.setup q.1)).count (Event.clean n) = 0 :=
  List.count_eq_zero_of_not_mem (by simp [List.mem_map])

lemma count_keys_nodup (ks : List String) (h : ks.Nodup) (n : String) :
    ks.count n = if n ∈ ks then 1 else 0 := by
  by_cases hm : n ∈ ks
  · simp [hm, List.count_eq_one_of_mem h hm]
  · simp [hm, List.count_eq_zero_of_not_mem hm]

lemma setupLoop_ok (l : Registry) (h : ∀ q ∈ l, q.2.setup = none) :
    setupLoop l = (l.map (fun q => Event.setup q.1), l, none) := by
  induction l with
  | nil => rfl
  | cons q rest ih =>
    obtain ⟨name, p⟩ := q
    have hp : p.setup = none := h (name, p) (List.mem_cons_self _ _)
    simp [setupLoop, hp, ih (fun q hq => h q (List.mem_cons_of_mem _ hq))]

lemma setupLoop_fail (pre : Registry) (fn : String) (fp : Player) (post : Registry)
    (e : Err) (hpre : ∀ q ∈ pre, q.2.setup = none) (hf : fp.setup = some e) :
    setupLoop (pre ++ (fn, fp) :: post)
      = (pre.map (fun q => Event.setup q.1) ++ [Event.setup fn], pre, some (fn, e)) := by
  induction pre with
  | nil => simp [setupLoop, hf]
  | cons q rest ih =>
    obtain ⟨name, p⟩ := q
    have hp : p.setup = none := hpre (name, p) (List.mem_cons_self _ _)
    simp [setupLoop, hp, ih (fun q hq => hpre q (List.mem_cons_of_mem _ hq))]

lemma lookup_add_self (r : Registry) (n : String) (p : Player) :
    Registry.lookup (Registry.add r n p) n = some p := by
  induction r with
  | nil => simp [Registry.add, Registry.lookup]
  | cons q rest ih =>
    obtain ⟨m, q'⟩ := q
    by_cases h : m = n
    · simp [Registry.add, h, Registry.lookup]
    · simp [Registry.add, h, Registry.lookup, ih]

lemma lookup_add_other (r : Registry) (n k : String) (p : Player) (hk : k ≠ n) :
    Registry.lookup (Registry.add r n p) k = Registry.lookup r k := by
  induction r with
  | nil => simp [Registry.add, Registry.lookup, Ne.symm hk]
  | cons q rest ih =>
    obtain ⟨m, q'⟩ := q
    by_cases h : m = n
    · subst h
      simp [Registry.add, Registry.lookup, Ne.symm hk]
    · simp [Registry.add, h, Registry.lookup, ih]

lemma keys_add_mem (r : Registry) (n : String) (p : Player) (hm : n ∈ Registry.keys r) :
    Registry.keys (Registry.add r n p) = Registry.keys r := by
  induction r with
  | nil => simp [Registry.keys] at hm
  | cons q rest ih =>
    obtain ⟨m, q'⟩ := q
    by_cases h : m = n
    · subst h
      simp [Registry.add, Registry.keys]
    · have hm' : n ∈ m :: Registry.keys rest := hm
      have hrest : n ∈ Registry.keys rest := by
        rcases List.mem_cons.mp hm' with hc | hc
        · exact absurd hc.symm h
        · exact hc
      have hadd : Registry.add ((m, q') :: rest) n p = (m, q') :: Registry.add rest n p := by
        simp [Registry.add, h]
      rw [hadd]
      show m :: Registry.keys (Registry.add rest n p) = m :: Registry.keys rest
      rw [ih hrest]

lemma keys_add_not_mem (r : Registry) (n : String) (p : Player)
    (hm : n ∉ Registry.keys r) :
    Registry.keys (Registry.add r n p) = Registry.keys r ++ [n] := by
  induction r with
  | nil => simp [Registry.add, Registry.keys]
  | cons q rest ih =>
    obtain ⟨m, q'⟩ := q
    have hm' : n ∉ m :: Registry.keys rest := hm
    have hmm : ¬ n = m := fun hc => hm' (by rw [hc]; exact List.mem_cons_self _ _)
    have hrest : n ∉ Registry.keys rest := fun hc => hm' (List.mem_cons_of_mem _ hc)
    have h : m ≠ n := fun hc => hmm hc.symm
    have hadd : Registry.add ((m, q') :: rest) n p = (m, q') :: Registry.add rest n p := by
      simp [Registry.add, h]
    rw [hadd]
    show m :: Registry.keys (Registry.add rest n p) = (m :: Registry.keys rest) ++ [n]
    rw [ih hrest, List.cons_append]

lemma keys_add (r : Registry) (n : String) (p : Player) :
    Registry.keys (Registry.add r n p)
      = (if n ∈ Registry.keys r then Registry.keys r
         else Registry.keys r ++ [n]) := by
  by_cases hm : n ∈ Registry.keys r
  · rw [if_pos hm, keys_add_mem r n p hm]
  · rw [if_neg hm, keys_add_not_mem r n p hm]

lemma setupLoop_fail_of_not_all (l : Registry) (h : ¬ ∀ q ∈ l, q.2.setup = none) :
    (setupLoop l).2.2.isSome = true := by
  induction l with
  | nil => exact absurd (by intro q hq; cases hq) h
  | cons q rest ih =>
    obtain ⟨name, p⟩ := q
    cases hp : p.setup with
    | some e => simp [setupLoop, hp]
    | none =>
      have hr : ¬ ∀ q ∈ rest, q.2.setup = none := by
        intro hall
        refine h ?_
        intro q hq
        rcases List.mem_cons.mp hq with hc | hc
        · rw [hc]
          exact hp
        · exact hall q hc
      simp [setupLoop, hp, ih hr]

/-! ### Claim theorems -/

/-- C10: a freshly constructed stage has no players; Setup on it succeeds,
performs no player invocation and marks the stage set up; Play on the
resulting stage returns nil for any cancellation context with no player
invocation; Clean returns with no player invocation. -/
theorem empty_stage_lifecycle :
    NewStage.players = [] ∧
    Stage.Setup NewStage = ({ players := [], beenSetup := true }, none, []) ∧
    (∀ ctx : Ctx, Stage.Play { players := [], beenSetup := true } ctx = some (none, [])) ∧
    Stage.Clean NewStage = [] := by
  refine ⟨rfl, rfl, fun ctx => ?_, rfl⟩
  simp [Stage.Play]

/-- C8: the SimplePlayer adapter: Setup always returns nil, Clean does
nothing, and Play invokes the wrapped function with the given context and
returns its result unchanged; the player behaviour it presents to a stage
agrees. -/
theorem simplePlayer_adapter (sp : SimplePlayer) (ctx : Ctx) :
    SimplePlayer.Setup sp = none ∧ SimplePlayer.Clean sp = () ∧
    SimplePlayer.Play sp ctx = sp ctx ∧
    (SimplePlayer.toPlayer sp).setup = none ∧
    (SimplePlayer.toPlayer sp).play ctx = sp ctx :=
  ⟨rfl, rfl, rfl, rfl, rfl⟩

/-- C9: Add with an already registered name silently replaces the previous
entry (no error is possible: Add is total and returns no value in Go);
afterwards the registry maps that name to the new player, every other name
is unchanged, and the set of registered names gains the name only if it was
absent. -/
theorem stage_add_overwrites (s : Stage) (n : String) (p : Player) :
    Registry.lookup (Stage.Add s n p).players n = some p ∧
    (∀ m, m ≠ n →
      Registry.lookup (Stage.Add s n p).players m = Registry.lookup s.players m) ∧
    Registry.keys (Stage.Add s n p).players
      = (if n ∈ Registry.keys s.players then Registry.keys s.players
         else Registry.keys s.players ++ [n]) :=
  ⟨lookup_add_self s.players n p,
   fun m hm => lookup_add_other s.players n m p hm,
   keys_add s.players n p⟩

/-- Witness for C9 at a concrete stage already holding the name "a": the
entry is overwritten, the other name "b" is untouched, the key set is
unchanged. -/
theorem stage_add_overwrites_witness :
    Registry.lookup (Stage.Add
        { players := [("a", okPlayer), ("b", okPlayer)], beenSetup := false }
        "a" (badSetupPlayer "x")).players "a" = some (badSetupPlayer "x") ∧
    Registry.lookup (Stage.Add
        { players := [("a", okPlayer), ("b", okPlayer)], beenSetup := false }
        "a" (badSetupPlayer "x")).players "b"
      = Registry.lookup [("a", okPlayer), ("b", okPlayer)] "b" ∧
    Registry.keys (Stage.Add
        { players := [("a", okPlayer), ("b", okPlayer)], beenSetup := false }
        "a" (badSetupPlayer "x")).players
      = (if "a" ∈ Registry.keys [("a", okPlayer), ("b", okPlayer)]
         then Registry.keys [("a", okPlayer), ("b", okPlayer)]
         else Registry.keys [("a", okPlayer), ("b", okPlayer)] ++ ["a"]) :=
  ⟨(stage_add_overwrites
      { players := [("a", okPlayer), ("b", okPlayer)], beenSetup := false }
      "a" (badSetupPlayer "x")).1,
   (stage_add_overwrites
      { players := [("a", okPlayer), ("b", okPlayer)], beenSetup := false }
      "a" (badSetupPlayer "x")).2.1 "b" (by decide),
   (stage_add_overwrites
      { players := [("a", okPlayer), ("b", okPlayer)], beenSetup := false }
      "a" (badSetupPlayer "x")).2.2⟩

/-- C3: Play on a stage whose beenSetup flag is unset (a freshly
constructed stage has it unset) panics, modelled as the `none` outcome,
returning no error value; and when Setup returns an error the resulting
stage still panics on Play. -/
theorem stage_play_panics (s : Stage) (ctx : Ctx) (h : s.beenSetup = false) :
    NewStage.beenSetup = false ∧
    Stage.Play s ctx = none ∧
    (∀ es, (Stage.Setup s).2.1 = some es → Stage.Play (Stage.Setup s).1 ctx = none) := by
  refine ⟨rfl, by simp [Stage.Play, h], fun es hes => ?_⟩
  unfold Stage.Setup at hes ⊢
  cases hsl : (setupLoop s.players).2.2 with
  | some fe => simp [hsl, Stage.Play, h]
  | none => simp [hsl] at hes

/-- Witness for C3: a stage holding one player whose setup fails; Play on
it panics both before and after the failed Setup. -/
theorem stage_play_panics_witness :
    ({ players := [("a", badSetupPlayer "boom")], beenSetup := false } : Stage).beenSetup
        = false ∧
    (NewStage.beenSetup = false ∧
     Stage.Play { players := [("a", badSetupPlayer "boom")], beenSetup := false } 0 = none ∧
     (∀ es, (Stage.Setup
          { players := [("a", badSetupPlayer "boom")], beenSetup := false }).2.1 = some es →
        Stage.Play (Stage.Setup
          { players := [("a", badSetupPlayer "boom")], beenSetup := false }).1 0 = none)) :=
  ⟨rfl, stage_play_panics
    { players := [("a", badSetupPlayer "boom")], beenSetup := false } 0 rfl⟩

/-- A concrete stage with two players whose setups succeed, for witnesses. -/
def stageAB : Stage := { players := [("a", okPlayer), ("b", okPlayer)], beenSetup := false }

/-- A concrete stage with one succeeding player and one player whose setup
fails, for witnesses. -/
def stageClean2 : Stage :=
  { players := [("a", okPlayer), ("b", badSetupPlayer "y")], beenSetup := false }

/-- C4: when every registered player sets up successfully, Stage.Setup
invokes Setup on every player exactly once, returns nil, and marks the
stage as set up, after which Play is permitted (does not panic). -/
theorem stage_setup_all_ok (s : Stage)
    (h : ∀ q ∈ s.players, q.2.setup = none)
    (hnd : (Registry.keys s.players).Nodup) :
    Stage.Setup s
        = ({ s with beenSetup := true }, none, s.players.map (fun q => Event.setup q.1)) ∧
    (∀ n ∈ Registry.keys s.players,
        (s.players.map (fun q => Event.setup q.1)).count (Event.setup n) = 1) ∧
    (∀ ctx, (Stage.Play (Stage.Setup s).1 ctx).isSome = true) := by
  have heq : Stage.Setup s
      = ({ s with beenSetup := true }, none, s.players.map (fun q => Event.setup q.1)) := by
    simp [Stage.Setup, setupLoop_ok s.players h]
  refine ⟨heq, fun n hn => ?_, fun ctx => ?_⟩
  · rw [count_map_label Event.setup event_setup_inj]
    exact List.count_eq_one_of_mem hnd hn
  · rw [heq]
    simp [Stage.Play]

/-- Witness for C4: a two-player stage whose setups both succeed. -/
theorem stage_setup_all_ok_witness :
    (∀ q ∈ stageAB.players, q.2.setup = none) ∧
    (Registry.keys stageAB.players).Nodup ∧
    (Stage.Setup stageAB
        = ({ stageAB with beenSetup := true }, none,
           stageAB.players.map (fun q => Event.setup q.1)) ∧
     (∀ n ∈ Registry.keys stageAB.players,
        (stageAB.players.map (fun q => Event.setup q.1)).count (Event.setup n) = 1) ∧
     (∀ ctx, (Stage.Play (Stage.Setup stageAB).1 ctx).isSome = true)) :=
  ⟨by decide, by decide, stage_setup_all_ok stageAB (by decide) (by decide)⟩

/-- C5: the beenSetup flag is false at construction, Add never changes it,
for a stage not yet successfully set up Setup sets it true exactly when
every registered player sets up without error, and Setup never changes the
registry (Play and Clean do not return a stage at all: they never write
the flag). -/
theorem beenSetup_invariant :
    NewStage.beenSetup = false ∧
    (∀ s n p, (Stage.Add s n p).beenSetup = s.beenSetup) ∧
    (∀ s : Stage, s.beenSetup = false →
      (((Stage.Setup s).1).beenSetup = true ↔ ∀ q ∈ s.players, q.2.setup = none)) ∧
    (∀ s : Stage, ((Stage.Setup s).1).players = s.players) := by
  refine ⟨rfl, fun s n p => rfl, fun s hs => ?_, fun s => ?_⟩
  · constructor
    · intro hflag
      by_contra hna
      have hsome := setupLoop_fail_of_not_all s.players hna
      simp only [Stage.Setup] at hflag
      cases hsl : (setupLoop s.players).2.2 with
      | none => rw [hsl] at hsome; simp at hsome
      | some fe =>
          rw [hsl] at hflag
          simp at hflag
          rw [hs] at hflag
          simp at hflag
    · intro hall
      simp [Stage.Setup, setupLoop_ok s.players hall]
  · simp only [Stage.Setup]
    cases hsl : (setupLoop s.players).2.2 with
    | none => rfl
    | some fe => rfl

/-- Witness for C5: the third conjunct applied to a concrete one-player
stage whose flag is unset. -/
theorem beenSetup_invariant_witness :
    ({ players := [("a", okPlayer)], beenSetup := false } : Stage).beenSetup = false ∧
    ((Stage.Setup { players := [("a", okPlayer)], beenSetup := false }).1.beenSetup = true
      ↔ ∀ q ∈ ({ players := [("a", okPlayer)], beenSetup := false } : Stage).players,
          q.2.setup = none) :=
  ⟨rfl, beenSetup_invariant.2.2.1 { players := [("a", okPlayer)], beenSetup := false } rfl⟩

/-- C7: Stage.Clean invokes Clean on every registered player exactly once
(and on no unregistered name), surfaces no error (it returns no value in
Go), and its behaviour is independent of the beenSetup flag, hence of
prior Setup or Play outcomes. -/
theorem stage_clean_all (s : Stage)
    (hnd : (Registry.keys s.players).Nodup) :
    (∀ n, (Stage.Clean s).count (Event.clean n)
        = if n ∈ Registry.keys s.players then 1 else 0) ∧
    (∀ b, Stage.Clean { players := s.players, beenSetup := b } = Stage.Clean s) := by
  refine ⟨fun n => ?_, fun b => rfl⟩
  have hdef : Stage.Clean s = s.players.map (fun q => Event.clean q.1) := rfl
  rw [hdef, count_map_label Event.clean event_clean_inj]
  exact count_keys_nodup _ hnd n

/-- Witness for C7 at a concrete two-player stage. -/
theorem stage_clean_all_witness :
    (Registry.keys stageClean2.players).Nodup ∧
    ((∀ n, (Stage.Clean stageClean2).count (Event.clean n)
        = if n ∈ Registry.keys stageClean2.players then 1 else 0) ∧
     (∀ b, Stage.Clean { players := stageClean2.players, beenSetup := b }
        = Stage.Clean stageClean2)) :=
  ⟨by decide, stage_clean_all stageClean2 (by decide)⟩

/-- A concrete stage whose single player "a" fails setup with "boom". -/
def stageFail : Stage :=
  { players := [("a", badSetupPlayer "boom")], beenSetup := false }

/-- A concrete three-player stage: "p" sets up fine, "q" fails setup with
"z", "r" comes after the failure. -/
def stagePQR : Stage :=
  { players := [("p", okPlayer), ("q", badSetupPlayer "z"), ("r", okPlayer)],
    beenSetup := false }

/-- C1 counterexample: the claim states that Setup is invoked neither on
the failing player nor on the players not yet reached, but Stage.Setup
necessarily invokes Setup on the failing player (that is how it obtains
the error it reports).  At the concrete stage whose single player "a"
fails setup, "a" is the failing player named by the returned ErrSetup, yet
the trace contains one Setup invocation of "a", not zero. -/
theorem stage_setup_first_failure_cex :
    (Stage.Setup stageFail).2.1 = some { Player := "a", Err := "boom" } ∧
    ¬ ((Stage.Setup stageFail).2.2.count (Event.setup "a") = 0) ∧
    (Stage.Setup stageFail).2.2.count (Event.setup "a") = 1 := by
  decide

/-- C1 (amended): when the registry splits as pre ++ (fn, fp) :: post with
every player of pre setting up successfully and fp failing with e,
Stage.Setup stops at fp: it returns ErrSetup carrying the name fn and the
error e, leaves the stage unchanged (not marked set up), invokes Setup
exactly once on each player of pre and once on fp, invokes Clean exactly
once on each player of pre and never on fp, and invokes neither Setup nor
Clean on the players of post. -/
theorem stage_setup_first_failure
    (s : Stage) (pre post : Registry) (fn : String) (fp : Player) (e : Err)
    (hsp : s.players = pre ++ (fn, fp) :: post)
    (hpre : ∀ q ∈ pre, q.2.setup = none)
    (hf : fp.setup = some e)
    (hnd : (Registry.keys s.players).Nodup) :
    (Stage.Setup s).1 = s ∧
    (Stage.Setup s).2.1 = some { Player := fn, Err := e } ∧
    (∀ n ∈ Registry.keys pre,
        (Stage.Setup s).2.2.count (Event.setup n) = 1 ∧
        (Stage.Setup s).2.2.count (Event.clean n) = 1) ∧
    ((Stage.Setup s).2.2.count (Event.setup fn) = 1 ∧
     (Stage.Setup s).2.2.count (Event.clean fn) = 0) ∧
    (∀ n ∈ Registry.keys post,
        (Stage.Setup s).2.2.count (Event.setup n) = 0 ∧
        (Stage.Setup s).2.2.count (Event.clean n) = 0) := by
  have hloop := setupLoop_fail pre fn fp post e hpre hf
  have heq : Stage.Setup s
      = (s, some { Player := fn, Err := e },
         (pre.map (fun q => Event.setup q.1) ++ [Event.setup fn])
           ++ pre.map (fun q => Event.clean q.1)) := by
    simp [Stage.Setup, hsp, hloop]
  have hkeys : Registry.keys s.players = Registry.keys pre ++ fn :: Registry.keys post := by
    rw [hsp, keys_append]
    rfl
  rw [hkeys] at hnd
  have hndpre : (Registry.keys pre).Nodup := hnd.of_append_left
  have hdisj : (Registry.keys pre).Disjoint (fn :: Registry.keys post) :=
    List.disjoint_of_nodup_append hnd
  have hndtail : (fn :: Registry.keys post).Nodup := hnd.of_append_right
  have hfn_not_pre : fn ∉ Registry.keys pre := fun hmem =>
    hdisj hmem (List.mem_cons_self _ _)
  have hfn_not_post : fn ∉ Registry.keys post := (List.nodup_cons.mp hndtail).1
  have hsetup_count : ∀ n, (Stage.Setup s).2.2.count (Event.setup n)
      = (Registry.keys pre).count n + (if n = fn then 1 else 0) := by
    intro n
    rw [heq]
    show ((pre.map (fun q => Event.setup q.1) ++ [Event.setup fn])
        ++ pre.map (fun q => Event.clean q.1)).count (Event.setup n) = _
    rw [List.count_append, List.count_append,
      count_map_label Event.setup event_setup_inj, count_setup_in_clean_map]
    have hsing : ([Event.setup fn] : List Event).count (Event.setup n)
        = if n = fn then 1 else 0 := by
      by_cases h : n = fn
      · subst h
        simp
      · rw [List.count_eq_zero_of_not_mem]
        · simp [h]
        · simp [h]
    rw [hsing, Nat.add_zero]
  have hclean_count : ∀ n, (Stage.Setup s).2.2.count (Event.clean n)
      = (Registry.keys pre).count n := by
    intro n
    rw [heq]
    show ((pre.map (fun q => Event.setup q.1) ++ [Event.setup fn])
        ++ pre.map (fun q => Event.clean q.1)).count (Event.clean n) = _
    rw [List.count_append, List.count_append,
      count_clean_in_setup_map, count_map_label Event.clean event_clean_inj]
    have hsing : ([Event.setup fn] : List Event).count (Event.clean n) = 0 := by
      rw [List.count_eq_zero_of_not_mem]
      simp
    rw [hsing]
    simp
  refine ⟨by rw [heq], by rw [heq], fun n hn => ?_, ⟨?_, ?_⟩, fun n hn => ?_⟩
  · have hne : ¬ n = fn := fun hc => hfn_not_pre (hc ▸ hn)
    rw [hsetup_count, hclean_count, List.count_eq_one_of_mem hndpre hn, if_neg hne]
    exact ⟨rfl, rfl⟩
  · rw [hsetup_count, List.count_eq_zero_of_not_mem hfn_not_pre, if_pos rfl]
  · rw [hclean_count]
    exact List.count_eq_zero_of_not_mem hfn_not_pre
  · have hnp : n ∉ Registry.keys pre := fun hc =>
      hdisj hc (List.mem_cons_of_mem _ hn)
    have hne : ¬ n = fn := fun hc => hfn_not_post (hc ▸ hn)
    rw [hsetup_count, hclean_count, List.count_eq_zero_of_not_mem hnp, if_neg hne]
    exact ⟨rfl, rfl⟩

/-- Witness for the amended C1 at the concrete stage stagePQR: "p"
succeeds, "q" fails with "z", "r" is never reached. -/
theorem stage_setup_first_failure_witness :
    stagePQR.players
        = [("p", okPlayer)] ++ ("q", badSetupPlayer "z") :: [("r", okPlayer)] ∧
    (∀ q ∈ [(("p" : String), okPlayer)], q.2.setup = none) ∧
    (badSetupPlayer "z").setup = some "z" ∧
    (Registry.keys stagePQR.players).Nodup ∧
    ((Stage.Setup stagePQR).1 = stagePQR ∧
     (Stage.Setup stagePQR).2.1 = some { Player := "q", Err := "z" } ∧
     (∀ n ∈ Registry.keys [(("p" : String), okPlayer)],
        (Stage.Setup stagePQR).2.2.count (Event.setup n) = 1 ∧
        (Stage.Setup stagePQR).2.2.count (Event.clean n) = 1) ∧
     ((Stage.Setup stagePQR).2.2.count (Event.setup "q") = 1 ∧
      (Stage.Setup stagePQR).2.2.count (Event.clean "q") = 0) ∧
     (∀ n ∈ Registry.keys [(("r" : String), okPlayer)],
        (Stage.Setup stagePQR).2.2.count (Event.setup n) = 0 ∧
        (Stage.Setup stagePQR).2.2.count (Event.clean n) = 0)) :=
  ⟨rfl, by decide, rfl, by decide,
   stage_setup_first_failure stagePQR [("p", okPlayer)] [("r", okPlayer)]
     "q" (badSetupPlayer "z") "z" rfl (by decide) rfl (by decide)⟩

/-- The aggregation list Play builds: one entry per failing player. -/
def playErrs (l : Registry) (ctx : Ctx) : List (String × Err) :=
  l.filterMap (fun q => (q.2.play ctx).map (fun e => (q.1, e)))

lemma stage_play_eq (s : Stage) (ctx : Ctx) (hb : s.beenSetup = true) :
    Stage.Play s ctx
      = some ((if playErrs s.players ctx = [] then none
               else some { Players := playErrs s.players ctx }),
          s.players.map (fun q => Event.play q.1)) := by
  simp [Stage.Play, hb, playErrs]

lemma length_playErrs (l : Registry) (ctx : Ctx) :
    (playErrs l ctx).length = (l.filter (fun q => (q.2.play ctx).isSome)).length := by
  induction l with
  | nil => rfl
  | cons q rest ih =>
    cases h : q.2.play ctx with
    | none => simp [playErrs, List.filterMap_cons, List.filter_cons, h] at ih ⊢; exact ih
    | some e => simp [playErrs, List.filterMap_cons, List.filter_cons, h] at ih ⊢; exact ih

lemma mem_playErrs (l : Registry) (ctx : Ctx) (n : String) (e : Err) :
    (n, e) ∈ playErrs l ctx ↔ ∃ p, (n, p) ∈ l ∧ p.play ctx = some e := by
  rw [playErrs, List.mem_filterMap]
  constructor
  · rintro ⟨q, hq, hmap⟩
    cases h : q.2.play ctx with
    | none => rw [h] at hmap; simp at hmap
    | some e' =>
        rw [h] at hmap
        simp only [Option.map_some', Option.some.injEq, Prod.mk.injEq] at hmap
        obtain ⟨h1, h2⟩ := hmap
        refine ⟨q.2, ?_, by rw [h, h2]⟩
        rw [← h1]
        exact hq
  · rintro ⟨p, hp, hplay⟩
    exact ⟨(n, p), hp, by rw [hplay]; rfl⟩

lemma mem_unique_of_nodup_keys (l : Registry) (hnd : (Registry.keys l).Nodup)
    (n : String) (p p' : Player) (h1 : (n, p) ∈ l) (h2 : (n, p') ∈ l) : p = p' := by
  induction l with
  | nil => cases h1
  | cons q rest ih =>
    obtain ⟨m, q'⟩ := q
    have hnd' : (m :: Registry.keys rest).Nodup := hnd
    have hm : m ∉ Registry.keys rest := (List.nodup_cons.mp hnd').1
    have hndr : (Registry.keys rest).Nodup := (List.nodup_cons.mp hnd').2
    rcases List.mem_cons.mp h1 with hc1 | hc1 <;> rcases List.mem_cons.mp h2 with hc2 | hc2
    · rw [Prod.mk.injEq] at hc1 hc2
      rw [hc1.2, hc2.2]
    · rw [Prod.mk.injEq] at hc1
      have hmem : n ∈ Registry.keys rest := List.mem_map_of_mem Prod.fst hc2
      rw [hc1.1] at hmem
      exact absurd hmem hm
    · rw [Prod.mk.injEq] at hc2
      have hmem : n ∈ Registry.keys rest := List.mem_map_of_mem Prod.fst hc1
      rw [hc2.1] at hmem
      exact absurd hmem hm
    · exact ih hndr hc1 hc2

/-- C2: for a stage in the ready state, Play returns nil exactly when no
player fails at the given context; when some do, it returns an ErrPlay
whose mapping has exactly one entry per failing player, mapping each
failing name to the error that player returned, and a registered name
whose player succeeds is absent from the mapping. -/
theorem stage_play_error_map (s : Stage) (ctx : Ctx)
    (hb : s.beenSetup = true)
    (hnd : (Registry.keys s.players).Nodup) :
    ((∃ tr, Stage.Play s ctx = some (none, tr))
        ↔ (s.players.filter (fun q => (q.2.play ctx).isSome)).length = 0) ∧
    ((s.players.filter (fun q => (q.2.play ctx).isSome)).length ≠ 0 →
        ∃ m tr, Stage.Play s ctx = some (some m, tr)) ∧
    (∀ m tr, Stage.Play s ctx = some (some m, tr) →
        m.Players.length = (s.players.filter (fun q => (q.2.play ctx).isSome)).length ∧
        (∀ n e, (n, e) ∈ m.Players ↔ ∃ p, (n, p) ∈ s.players ∧ p.play ctx = some e) ∧
        (∀ n p, (n, p) ∈ s.players → p.play ctx = none →
            ∀ e, (n, e) ∉ m.Players)) := by
  have hplay := stage_play_eq s ctx hb
  refine ⟨⟨fun ⟨tr, htr⟩ => ?_, fun hz => ?_⟩, fun hnz => ?_, fun m tr hm => ?_⟩
  · rw [hplay] at htr
    by_cases hz : playErrs s.players ctx = []
    · rw [← length_playErrs, hz]
      rfl
    · rw [if_neg hz] at htr
      simp at htr
  · rw [← length_playErrs, List.length_eq_zero] at hz
    exact ⟨_, by rw [hplay, if_pos hz]⟩
  · have hz : ¬ playErrs s.players ctx = [] := by
      intro hc
      rw [← length_playErrs, hc] at hnz
      exact hnz rfl
    exact ⟨_, _, by rw [hplay, if_neg hz]⟩
  · rw [hplay] at hm
    by_cases hz : playErrs s.players ctx = []
    · rw [if_pos hz] at hm
      simp at hm
    · rw [if_neg hz] at hm
      simp only [Option.some.injEq, Prod.mk.injEq] at hm
      have hmp : m.Players = playErrs s.players ctx := by
        have := hm.1.symm
        rw [this]
      refine ⟨by rw [hmp, length_playErrs], fun n e => ?_, fun n p hp hnone e hmem => ?_⟩
      · rw [hmp]
        exact mem_playErrs s.players ctx n e
      · rw [hmp] at hmem
        obtain ⟨p', hp', hplay'⟩ := (mem_playErrs s.players ctx n e).mp hmem
        have : p = p' := mem_unique_of_nodup_keys s.players hnd n p p' hp hp'
        rw [← this, hnone] at hplay'
        cases hplay'

/-- A concrete ready stage with a succeeding and a failing player, for
the Play witnesses. -/
def stagePlayW : Stage :=
  { players := [("a", okPlayer), ("b", badPlayPlayer "x")], beenSetup := true }

/-- Witness for C2 at a concrete ready stage with one failing player. -/
theorem stage_play_error_map_witness :
    stagePlayW.beenSetup = true ∧
    (Registry.keys stagePlayW.players).Nodup ∧
    (((∃ tr, Stage.Play stagePlayW 0 = some (none, tr))
        ↔ (stagePlayW.players.filter (fun q => (q.2.play 0).isSome)).length = 0) ∧
     ((stagePlayW.players.filter (fun q => (q.2.play 0).isSome)).length ≠ 0 →
        ∃ m tr, Stage.Play stagePlayW 0 = some (some m, tr)) ∧
     (∀ m tr, Stage.Play stagePlayW 0 = some (some m, tr) →
        m.Players.length
            = (stagePlayW.players.filter (fun q => (q.2.play 0).isSome)).length ∧
        (∀ n e, (n, e) ∈ m.Players
            ↔ ∃ p, (n, p) ∈ stagePlayW.players ∧ p.play 0 = some e) ∧
        (∀ n p, (n, p) ∈ stagePlayW.players → p.play 0 = none →
            ∀ e, (n, e) ∉ m.Players))) :=
  ⟨rfl, by decide, stage_play_error_map stagePlayW 0 rfl (by decide)⟩

/-- C6: for a stage in the ready state, Play does not panic, its trace
holds exactly one Play invocation per registered name (and none for any
other name), every player is invoked with the one shared context, and the
returned aggregation accounts for every task: any player that fails at
that context has its entry in the returned mapping, so the result is only
produced once every task has been accounted for. -/
theorem stage_play_runs_all (s : Stage) (ctx : Ctx)
    (hb : s.beenSetup = true)
    (hnd : (Registry.keys s.players).Nodup) :
    ∃ r, Stage.Play s ctx = some (r, s.players.map (fun q => Event.play q.1)) ∧
      (∀ n, (s.players.map (fun q => Event.play q.1)).count (Event.play n)
          = if n ∈ Registry.keys s.players then 1 else 0) ∧
      (∀ q ∈ s.players, ∀ e, q.2.play ctx = some e →
          ∃ m, r = some m ∧ (q.1, e) ∈ m.Players) := by
  have hplay := stage_play_eq s ctx hb
  refine ⟨_, hplay, fun n => ?_, fun q hq e he => ?_⟩
  · rw [count_map_label Event.play event_play_inj]
    exact count_keys_nodup _ hnd n
  · have hmem : (q.1, e) ∈ playErrs s.players ctx :=
      (mem_playErrs s.players ctx q.1 e).mpr ⟨q.2, hq, he⟩
    have hz : ¬ playErrs s.players ctx = [] := by
      intro hc
      rw [hc] at hmem
      cases hmem
    exact ⟨{ Players := playErrs s.players ctx }, by rw [if_neg hz], hmem⟩

/-- Witness for C6 at a concrete ready stage with one failing player. -/
theorem stage_play_runs_all_witness :
    stagePlayW.beenSetup = true ∧
    (Registry.keys stagePlayW.players).Nodup ∧
    (∃ r, Stage.Play stagePlayW 0
          = some (r, stagePlayW.players.map (fun q => Event.play q.1)) ∧
      (∀ n, (stagePlayW.players.map (fun q => Event.play q.1)).count (Event.play n)
          = if n ∈ Registry.keys stagePlayW.players then 1 else 0) ∧
      (∀ q ∈ stagePlayW.players, ∀ e, q.2.play 0 = some e →
          ∃ m, r = some m ∧ (q.1, e) ∈ m.Players)) :=
  ⟨rfl, by decide, stage_play_runs_all stagePlayW 0 rfl (by decide)⟩

end Orchestra
